import Mathlib

/-!
Verification development for `load/stream_load.py`, a streaming load
generator. The Python source is shallowly embedded below: pure functions
(`percentile`, `compute_metrics`) become Lean functions over `ℚ` (the
embedding of Python's numeric values), the SSE-parsing loop of
`send_streaming_request` becomes a recursion over an explicit list of
classified stream lines, and the lock-protected request-id counter used by
`worker` becomes explicit state passing over a serialized trace of draws.
-/

set_option autoImplicit false

namespace StreamLoad

/-- Shallow embedding of the `RequestResult` dataclass.  Timestamps and
durations are embedded as rationals; `status_code` and `tokens_received`
are naturals; `error = ""` signals success exactly as in the source. -/
structure RequestResult where
  request_id : ℕ
  start_time : ℚ
  ttft : ℚ
  total_time : ℚ
  tokens_received : ℕ
  status_code : ℕ
  error : String
  stream_completed : Bool
  finish_reason : String
deriving DecidableEq

/-- Floor of a rational, written so that it evaluates by kernel reduction
(integer division in Lean rounds toward negative infinity). -/
def ratFloor (q : ℚ) : ℤ := q.num / (q.den : ℤ)

/-- Ceiling of a rational, computably. -/
def ratCeil (q : ℚ) : ℤ := -ratFloor (-q)

/-- Python `int(q)` on a number: truncation toward zero. -/
def pyInt (q : ℚ) : ℤ :=
  if 0 ≤ q then ratFloor q else ratCeil q

/-- Python list indexing `l[i]`: negative indices count from the end, and
an index outside `[-len, len)` raises `IndexError`, embedded as `none`. -/
def pyGet (l : List ℚ) (i : ℤ) : Option ℚ :=
  let j : ℤ := if i < 0 then (l.length : ℤ) + i else i
  if h : 0 ≤ j ∧ j < (l.length : ℤ) then some (l.get ⟨j.toNat, by omega⟩) else none

/-- Round-half-to-even on a rational, the tie-breaking rule of Python's
built-in `round`. -/
def roundHalfEven (q : ℚ) : ℤ :=
  if q - ratFloor q < 1 / 2 then ratFloor q
  else if 1 / 2 < q - ratFloor q then ratFloor q + 1
  else if ratFloor q % 2 = 0 then ratFloor q else ratFloor q + 1

/-- Embedding of Python `round(q, n)` (round half to even at `n` decimal
digits). -/
def pyRound (q : ℚ) (n : ℕ) : ℚ :=
  (roundHalfEven (q * 10 ^ n) : ℚ) / 10 ^ n

/-- Embedding of `d.get(k, v)` on the Python dict built by
`compute_metrics` (represented as an insertion-ordered association list). -/
def dictGetD : List (String × ℕ) → String → ℕ → ℕ
  | [], _, v => v
  | (k0, v0) :: rest, k, v => if k0 = k then v0 else dictGetD rest k v

/-- Embedding of `d[k] = v` on a Python dict: update in place if the key is
present, otherwise append at the end. -/
def dictSet : List (String × ℕ) → String → ℕ → List (String × ℕ)
  | [], k, v => [(k, v)]
  | (k0, v0) :: rest, k, v =>
    if k0 = k then (k0, v) :: rest else (k0, v0) :: dictSet rest k v

/-- One step of the `status_counts` accumulation in `compute_metrics`:
`status_counts[key] = status_counts.get(key, 0) + 1` with
`key = str(r.status_code)`. -/
def countStatus (d : List (String × ℕ)) (r : RequestResult) : List (String × ℕ) :=
  dictSet d (toString r.status_code) (dictGetD d (toString r.status_code) 0 + 1)

/-- Embedding of `percentile(sorted_values, p)`.  The two list accesses use
Python indexing semantics, so the result is `none` exactly when the source
would raise `IndexError`; on an empty list the source returns `0.0`. -/
def percentile (sorted_values : List ℚ) (p : ℚ) : Option ℚ :=
  if sorted_values = [] then some 0
  else
    let k : ℚ := ((sorted_values.length : ℚ) - 1) * (p / 100)
    let f : ℤ := pyInt k
    let c : ℤ := min (f + 1) ((sorted_values.length : ℤ) - 1)
    let d : ℚ := k - (f : ℚ)
    match pyGet sorted_values f, pyGet sorted_values c with
    | some vf, some vc => some (vf + d * (vc - vf))
    | _, _ => none

/-- Shallow embedding of the dict returned by `compute_metrics`. -/
structure Metrics where
  total_requests : ℕ
  successful : ℕ
  failed : ℕ
  error_rate : ℚ
  status_code_counts : List (String × ℕ)
  ttft_p50 : ℚ
  ttft_p95 : ℚ
  tokens_per_sec : ℚ
  stream_completion_rate : ℚ
  duration_actual : ℚ
deriving DecidableEq

/-- Embedding of `compute_metrics(results, start_time, end_time)`.  Python's
`sorted` is embedded as `List.insertionSort`; the two `percentile` calls use
`p = 50` and `p = 95`, which never raise, so `Option.getD 0` is a dead
default (see `percentile_in_bounds`). -/
def compute_metrics (results : List RequestResult) (start_time end_time : ℚ) : Metrics :=
  let total := results.length
  if total = 0 then
    { total_requests := 0
      successful := 0
      failed := 0
      error_rate := 0
      status_code_counts := []
      ttft_p50 := 0
      ttft_p95 := 0
      tokens_per_sec := 0
      stream_completion_rate := 0
      duration_actual := end_time - start_time }
  else
    let successful := results.countP (fun r => r.error = "")
    let failed := total - successful
    let error_rate : ℚ := if 0 < total then (failed : ℚ) / (total : ℚ) else 0
    let status_counts := results.foldl countStatus []
    let ttft_values :=
      List.insertionSort (· ≤ ·) ((results.filter (fun r => 0 < r.ttft)).map (fun r => r.ttft))
    let total_tokens := (results.map (fun r => r.tokens_received)).sum
    let duration := end_time - start_time
    let tokens_per_sec : ℚ := if 0 < duration then (total_tokens : ℚ) / duration else 0
    let completed_streams := results.countP (fun r => r.stream_completed)
    let stream_completion_rate : ℚ :=
      if 0 < total then (completed_streams : ℚ) / (total : ℚ) else 0
    { total_requests := total
      successful := successful
      failed := failed
      error_rate := pyRound error_rate 4
      status_code_counts := status_counts
      ttft_p50 := pyRound ((percentile ttft_values 50).getD 0) 4
      ttft_p95 := pyRound ((percentile ttft_values 95).getD 0) 4
      tokens_per_sec := pyRound tokens_per_sec 1
      stream_completion_rate := pyRound stream_completion_rate 4
      duration_actual := pyRound duration 1 }

/-- Classification of one line yielded by `resp.iter_lines` in
`send_streaming_request`, by the branch of the parsing loop it takes.
JSON parsing is performed by the external `json` library, so a line is
embedded by its parse outcome rather than its raw bytes:
`nonData` = empty line or line without the `"data: "` prefix;
`done` = payload whose `strip()` equals `"[DONE]"`;
`frame t text finish` = payload parsed to an object from which the loop
extracts `choices[0].get("text", "")` and `choices[0].get("finish_reason")`
(an empty or missing `choices` gives `frame t "" none`), with `t` the value
`time.time()` would return while this line is processed;
`malformedCaught` = payload on which `json.loads` raises `JSONDecodeError`,
or whose extraction raises `IndexError` or `KeyError` — the inner `except`
catches these and `pass`es;
`malformedUncaught msg` = payload whose extraction raises an exception NOT
listed in the inner `except` clause (for example `AttributeError` with
message `msg` when `json.loads` returns a non-object such as `42`, so that
`data.get` does not exist) — it propagates to the outer
`except Exception` handler. -/
inductive StreamLine where
  | nonData
  | done
  | frame (t : ℚ) (text : String) (finish : Option String)
  | malformedCaught
  | malformedUncaught (msg : String)
deriving DecidableEq

/-- How the `for line in resp.iter_lines()` loop was left: by exhausting the
iterator, by `break` on the `[DONE]` sentinel, or by an uncaught exception
aborting the loop. -/
inductive LoopExit where
  | exhausted
  | broke
  | aborted
deriving DecidableEq

/-- Exceptions that the transport layer (`requests`) can raise, matched by
the outer `except` clauses of `send_streaming_request`. -/
inductive TransportError where
  | connectionError
  | chunkedEncodingError
  | timeoutError
  | otherError (msg : String)
deriving DecidableEq

/-- The error string each `except` clause stores into `result.error`. -/
def TransportError.toErrorString : TransportError → String
  | .connectionError => "connection_reset"
  | .chunkedEncodingError => "stream_interrupted"
  | .timeoutError => "timeout"
  | .otherError msg => msg

/-- One observable behaviour of `session.post(...)`: either an exception
before any status is obtained, or a response with a status code, a sequence
of body lines, and optionally a transport exception raised by `iter_lines`
after those lines (present only if the loop actually reads that far). -/
inductive Transport where
  | netFailure (e : TransportError)
  | response (status : ℕ) (lines : List StreamLine) (midstream : Option TransportError)
deriving DecidableEq

/-- The `RequestResult(...)` literal initialising `result` in
`send_streaming_request`. -/
def initResult (request_id : ℕ) (start_time : ℚ) : RequestResult :=
  { request_id := request_id
    start_time := start_time
    ttft := 0
    total_time := 0
    tokens_received := 0
    status_code := 0
    error := ""
    stream_completed := false
    finish_reason := "" }

/-- The body of the `for line in resp.iter_lines()` loop, with the local
variable `first_token_time` threaded explicitly (`none` = Python `None`).
An uncaught exception (`malformedUncaught`) stores its message into
`result.error` via the outer `except Exception` handler and aborts the
loop. -/
def processLines : List StreamLine → Option ℚ → RequestResult → RequestResult × LoopExit
  | [], _, r => (r, .exhausted)
  | line :: rest, ftt, r =>
    match line with
    | .nonData => processLines rest ftt r
    | .done => ({ r with stream_completed := true }, .broke)
    | .malformedCaught => processLines rest ftt r
    | .malformedUncaught msg => ({ r with error := msg }, .aborted)
    | .frame t text finish =>
      let step : RequestResult × Option ℚ :=
        if text ≠ "" then
          let r1 := { r with tokens_received := r.tokens_received + 1 }
          match ftt with
          | none => ({ r1 with ttft := t - r1.start_time }, some t)
          | some t0 => (r1, some t0)
        else (r, ftt)
      let r2 :=
        match finish with
        | some fr => { step.1 with finish_reason := fr, stream_completed := true }
        | none => step.1
      processLines rest step.2 r2

/-- Embedding of `send_streaming_request`.  `start_time` is the value of
`time.time()` at entry and `end_time` its value when `total_time` is
finally computed; the per-line clock readings travel inside `frame`
constructors.  A `midstream` transport error is raised by `iter_lines`
only when the loop exhausts the yielded lines (a `break` or an uncaught
in-loop exception leaves the iterator unread). -/
def send_streaming_request (request_id : ℕ) (start_time end_time : ℚ)
    (tr : Transport) : RequestResult :=
  let result := initResult request_id start_time
  match tr with
  | .netFailure e =>
    { result with error := e.toErrorString, total_time := end_time - start_time }
  | .response status lines midstream =>
    let result := { result with status_code := status }
    if status ≠ 200 then
      { result with
          error := "HTTP " ++ toString status
          total_time := end_time - start_time }
    else
      let out := processLines lines none result
      let result :=
        match out.2, midstream with
        | .exhausted, some e => { out.1 with error := e.toErrorString }
        | _, _ => out.1
      { result with total_time := end_time - start_time }

/-- The id draw performed inside `worker` under `counter_lock`:
`req_id = request_counter[0]; request_counter[0] += 1`. -/
def drawId (request_counter : ℕ) : ℕ × ℕ :=
  (request_counter, request_counter + 1)

/-- Serialized trace of the worker loops.  `counter_lock` makes each
read-then-increment of the shared counter atomic, so every interleaved
execution of the N workers is equivalent to some linear sequence of draws;
each list element is one completed worker iteration (one draw followed by
one `send_streaming_request` whose outcome is appended to `results`), and
the drain phase guarantees every drawn id ends up with an appended
outcome.  Returns the collected outcomes and the final counter value. -/
def workerTrace : List (ℚ × ℚ × Transport) → ℕ → List RequestResult × ℕ
  | [], c => ([], c)
  | (s, e, tr) :: rest, c =>
    let draw := drawId c
    let result := send_streaming_request draw.1 s e tr
    let tail := workerTrace rest draw.2
    (result :: tail.1, tail.2)

/-! ## Helper lemmas -/

theorem ratFloor_eq_floor (q : ℚ) : ratFloor q = ⌊q⌋ := Rat.floor_def.symm

theorem ratCeil_eq_ceil (q : ℚ) : ratCeil q = ⌈q⌉ := by
  rw [ratCeil, ratFloor_eq_floor, Int.floor_neg, neg_neg]

theorem pyInt_of_nonneg (q : ℚ) (h : 0 ≤ q) : pyInt q = ⌊q⌋ := by
  simp [pyInt, h, ratFloor_eq_floor]

theorem pyGet_eq_getD (l : List ℚ) (i : ℤ) (h0 : 0 ≤ i) (h1 : i < (l.length : ℤ)) :
    pyGet l i = some (l.getD i.toNat 0) := by
  have hni : ¬ i < 0 := by omega
  have hlt : i.toNat < l.length := by omega
  simp only [pyGet, hni, if_false, dif_pos (And.intro h0 h1)]
  rw [List.getD_eq_getElem?_getD, List.getElem?_eq_getElem hlt, Option.getD_some]
  simp [List.get_eq_getElem]

theorem percentile_bounds_aux (l : List ℚ) (p : ℚ)
    (hl : l ≠ []) (hp0 : 0 ≤ p) (hp1 : p ≤ 100) :
    0 ≤ pyInt (((l.length : ℚ) - 1) * (p / 100)) ∧
    pyInt (((l.length : ℚ) - 1) * (p / 100)) ≤ (l.length : ℤ) - 1 := by
  have hM : 1 ≤ l.length := List.length_pos.mpr hl
  have hM' : (1 : ℚ) ≤ (l.length : ℚ) := by exact_mod_cast hM
  have hk0 : (0 : ℚ) ≤ ((l.length : ℚ) - 1) * (p / 100) := by
    apply mul_nonneg (by linarith) (by positivity)
  have hk1 : ((l.length : ℚ) - 1) * (p / 100) ≤ (l.length : ℚ) - 1 := by
    have hp100 : p / 100 ≤ 1 := by
      rw [div_le_one (by norm_num)]; exact hp1
    nlinarith
  have hfl : pyInt (((l.length : ℚ) - 1) * (p / 100))
      = ⌊((l.length : ℚ) - 1) * (p / 100)⌋ := pyInt_of_nonneg _ hk0
  constructor
  · rw [hfl]; exact Int.floor_nonneg.mpr hk0
  · rw [hfl]
    have : ((l.length : ℚ) - 1) = (((l.length : ℤ) - 1 : ℤ) : ℚ) := by push_cast; ring
    calc ⌊((l.length : ℚ) - 1) * (p / 100)⌋
        ≤ ⌊((l.length : ℚ) - 1)⌋ := Int.floor_le_floor hk1
      _ = (l.length : ℤ) - 1 := by rw [this, Int.floor_intCast]

theorem percentile_eval (l : List ℚ) (p : ℚ)
    (hl : l ≠ []) (hp0 : 0 ≤ p) (hp1 : p ≤ 100) :
    percentile l p =
      some (l.getD (pyInt (((l.length : ℚ) - 1) * (p / 100))).toNat 0 +
        (((l.length : ℚ) - 1) * (p / 100)
            - (pyInt (((l.length : ℚ) - 1) * (p / 100)) : ℚ)) *
          (l.getD (min (pyInt (((l.length : ℚ) - 1) * (p / 100)) + 1)
              ((l.length : ℤ) - 1)).toNat 0 -
            l.getD (pyInt (((l.length : ℚ) - 1) * (p / 100))).toNat 0)) := by
  obtain ⟨hf0, hf1⟩ := percentile_bounds_aux l p hl hp0 hp1
  have hM : 1 ≤ l.length := List.length_pos.mpr hl
  have hc0 : 0 ≤ min (pyInt (((l.length : ℚ) - 1) * (p / 100)) + 1) ((l.length : ℤ) - 1) := by
    apply le_min (by omega) (by omega)
  have hc1 : min (pyInt (((l.length : ℚ) - 1) * (p / 100)) + 1) ((l.length : ℤ) - 1)
      ≤ (l.length : ℤ) - 1 := min_le_right _ _
  simp only [percentile, hl, if_false]
  rw [pyGet_eq_getD l _ hf0 (by omega), pyGet_eq_getD l _ hc0 (by omega)]

theorem roundHalfEven_zero : roundHalfEven 0 = 0 := by
  norm_num [roundHalfEven, ratFloor_eq_floor]

theorem pyRound_zero (n : ℕ) : pyRound 0 n = 0 := by
  simp [pyRound, roundHalfEven_zero]

theorem roundHalfEven_nonneg (q : ℚ) (h : 0 ≤ q) : 0 ≤ roundHalfEven q := by
  have h0 : (0 : ℤ) ≤ ⌊q⌋ := Int.floor_nonneg.mpr h
  simp only [roundHalfEven, ratFloor_eq_floor]
  split_ifs <;> omega

theorem roundHalfEven_le_of_le (q : ℚ) (n : ℤ) (h : q ≤ (n : ℚ)) : roundHalfEven q ≤ n := by
  have hfl : ⌊q⌋ ≤ n := by
    have := Int.floor_le_floor h
    rwa [Int.floor_intCast] at this
  have hq : (⌊q⌋ : ℚ) ≤ q := Int.floor_le q
  simp only [roundHalfEven, ratFloor_eq_floor]
  split_ifs with h1 h2 h3
  · exact hfl
  · have hlt : (⌊q⌋ : ℚ) < (n : ℚ) := by linarith
    have : ⌊q⌋ < n := by exact_mod_cast hlt
    omega
  · exact hfl
  · have heq : q - (⌊q⌋ : ℚ) = 1 / 2 := by linarith
    have hlt : (⌊q⌋ : ℚ) < (n : ℚ) := by linarith
    have : ⌊q⌋ < n := by exact_mod_cast hlt
    omega

theorem pyRound_nonneg (q : ℚ) (n : ℕ) (h : 0 ≤ q) : 0 ≤ pyRound q n := by
  unfold pyRound
  apply div_nonneg _ (by positivity)
  have : (0 : ℤ) ≤ roundHalfEven (q * 10 ^ n) := by
    apply roundHalfEven_nonneg
    positivity
  exact_mod_cast this

theorem pyRound_le_one (q : ℚ) (n : ℕ) (h : q ≤ 1) : pyRound q n ≤ 1 := by
  unfold pyRound
  rw [div_le_one (by positivity)]
  have hq : q * 10 ^ n ≤ ((10 ^ n : ℤ) : ℚ) := by
    push_cast
    have := mul_le_mul_of_nonneg_right h (by positivity : (0 : ℚ) ≤ 10 ^ n)
    linarith
  have := roundHalfEven_le_of_le (q * 10 ^ n) (10 ^ n) hq
  exact_mod_cast this

/-! ## Claims -/

/-- C1: `percentile` on a sorted list follows the interpolation formula:
for non-empty `l` of length `M` and `p ∈ [0, 100]`, with `k = (M-1)*p/100`,
`f = int(k)`, `c = min (f+1) (M-1)`, `d = k - f`, it returns
`l[f] + d * (l[c] - l[f])`; it returns `0` on the empty list;
`percentile [10,20,30,40] 50 = 25`; and `percentile [x] p = x`. -/
theorem percentile_interpolation_formula (l : List ℚ) (p x q : ℚ)
    (hl : l ≠ []) (_hs : l.Sorted (· ≤ ·)) (hp0 : 0 ≤ p) (hp1 : p ≤ 100) :
    percentile l p =
      some (l.getD (pyInt (((l.length : ℚ) - 1) * (p / 100))).toNat 0 +
        (((l.length : ℚ) - 1) * (p / 100)
            - (pyInt (((l.length : ℚ) - 1) * (p / 100)) : ℚ)) *
          (l.getD (min (pyInt (((l.length : ℚ) - 1) * (p / 100)) + 1)
              ((l.length : ℤ) - 1)).toNat 0 -
            l.getD (pyInt (((l.length : ℚ) - 1) * (p / 100))).toNat 0)) ∧
    percentile [] q = some 0 ∧
    percentile [10, 20, 30, 40] 50 = some 25 ∧
    percentile [x] p = some x := by
  refine ⟨percentile_eval l p hl hp0 hp1, by simp [percentile], ?_, ?_⟩
  · norm_num [percentile, pyInt, pyGet, ratFloor_eq_floor]
    rw [if_neg (by simp)]
    norm_num [show ((2 : ℤ)).toNat = 2 from rfl, List.getElem_cons_succ,
      List.getElem_cons_zero]
  have h1 := percentile_eval [x] p (by simp) hp0 hp1
  have hk : ((([x] : List ℚ).length : ℚ) - 1) * (p / 100) = 0 := by
    simp
  rw [h1, hk]
  have hpy : pyInt 0 = 0 := by norm_num [pyInt, ratFloor_eq_floor]
  rw [hpy]
  norm_num

/-- C1 witness: the interpolation theorem applied to the concrete inputs
`l = [10, 20, 30, 40]`, `p = 50`, `x = 7`. -/
theorem percentile_interpolation_formula_witness :
    percentile [10, 20, 30, 40] 50 = some 25 ∧ percentile [(7 : ℚ)] 50 = some 7 := by
  have h := percentile_interpolation_formula [10, 20, 30, 40] 50 7 3
    (by decide) (by decide) (by norm_num) (by norm_num)
  exact ⟨h.2.2.1, h.2.2.2⟩

/-- C9: for a non-empty list and `p ∈ [0, 100]`, the indices
`f = int((M-1)*p/100)` and `c = min (f+1) (M-1)` computed by `percentile`
both lie in `[0, M-1]`, so both list accesses succeed and the function is
total under that precondition; for `p > 100` the access `l[f]` can be out
of bounds (witnessed by `percentile [1, 2] 200 = none`). -/
theorem percentile_indices_in_bounds (l : List ℚ) (p : ℚ)
    (hl : l ≠ []) (hp0 : 0 ≤ p) (hp1 : p ≤ 100) :
    (0 ≤ pyInt (((l.length : ℚ) - 1) * (p / 100)) ∧
      pyInt (((l.length : ℚ) - 1) * (p / 100)) ≤ (l.length : ℤ) - 1) ∧
    (0 ≤ min (pyInt (((l.length : ℚ) - 1) * (p / 100)) + 1) ((l.length : ℤ) - 1) ∧
      min (pyInt (((l.length : ℚ) - 1) * (p / 100)) + 1) ((l.length : ℤ) - 1)
        ≤ (l.length : ℤ) - 1) ∧
    (percentile l p).isSome = true ∧
    percentile [1, 2] 200 = none := by
  obtain ⟨hf0, hf1⟩ := percentile_bounds_aux l p hl hp0 hp1
  have hM : 1 ≤ l.length := List.length_pos.mpr hl
  refine ⟨⟨hf0, hf1⟩, ⟨le_min (by omega) (by omega), min_le_right _ _⟩, ?_, ?_⟩
  · rw [percentile_eval l p hl hp0 hp1]
    rfl
  · norm_num [percentile, pyInt, pyGet, ratFloor_eq_floor]
    intro h
    simp at h

/-- C9 witness: the bounds theorem applied to `l = [1, 2, 3]`, `p = 95`. -/
theorem percentile_indices_in_bounds_witness :
    (percentile [1, 2, 3] 95).isSome = true := by
  have h := percentile_indices_in_bounds [1, 2, 3] 95
    (by decide) (by norm_num) (by norm_num)
  exact h.2.2.1

theorem processLines_ttft_invariant (lines : List StreamLine) (ftt : Option ℚ)
    (r : RequestResult) (h : r.ttft ≠ 0 → 1 ≤ r.tokens_received) :
    (processLines lines ftt r).1.ttft ≠ 0 → 1 ≤ (processLines lines ftt r).1.tokens_received := by
  induction lines generalizing ftt r with
  | nil => simpa [processLines] using h
  | cons line rest ih =>
    cases line with
    | nonData => exact ih ftt r h
    | done => simpa [processLines] using h
    | malformedCaught => exact ih ftt r h
    | malformedUncaught msg => simpa [processLines] using h
    | frame t text finish =>
      simp only [processLines]
      apply ih
      by_cases ht : text = "" <;>
        cases ftt <;>
        cases finish <;>
        simp_all

theorem processLines_request_id (lines : List StreamLine) (ftt : Option ℚ)
    (r : RequestResult) :
    (processLines lines ftt r).1.request_id = r.request_id := by
  induction lines generalizing ftt r with
  | nil => rfl
  | cons line rest ih =>
    cases line with
    | nonData => exact ih ftt r
    | done => rfl
    | malformedCaught => exact ih ftt r
    | malformedUncaught msg => rfl
    | frame t text finish =>
      simp only [processLines]
      rw [ih]
      by_cases ht : text = "" <;> cases ftt <;> cases finish <;> simp_all

theorem send_streaming_request_request_id (request_id : ℕ) (s e : ℚ) (tr : Transport) :
    (send_streaming_request request_id s e tr).request_id = request_id := by
  cases tr with
  | netFailure err => rfl
  | response status lines midstream =>
    simp only [send_streaming_request]
    by_cases hst : status ≠ 200
    · simp [hst, initResult]
    · simp only [hst, if_false]
      have hpl := processLines_request_id lines none
        { initResult request_id s with status_code := status }
      cases hout : (processLines lines none
          { initResult request_id s with status_code := status }).2 <;>
        cases midstream <;>
        simp_all [initResult]

/-- C4: in every outcome of `send_streaming_request`, a positive
`time_to_first_token` implies at least one received token: `ttft` is
assigned only in the branch that has just incremented `tokens_received`
for the first non-empty fragment, and the counter never decreases. -/
theorem ttft_positive_implies_token_received (request_id : ℕ) (s e : ℚ)
    (tr : Transport) (h : 0 < (send_streaming_request request_id s e tr).ttft) :
    1 ≤ (send_streaming_request request_id s e tr).tokens_received := by
  revert h
  cases tr with
  | netFailure err => simp [send_streaming_request, initResult]
  | response status lines midstream =>
    simp only [send_streaming_request]
    by_cases hst : status ≠ 200
    · simp [hst, initResult]
    · simp only [hst, if_false]
      intro h
      have hinv := processLines_ttft_invariant lines none
        { initResult request_id s with status_code := status }
        (by simp [initResult])
      cases hout : (processLines lines none
          { initResult request_id s with status_code := status }).2 <;>
        cases midstream <;>
        simp_all [initResult] <;>
        exact hinv (by intro h0; rw [h0] at h; exact lt_irrefl 0 h)

/-- C4 witness: a stream delivering one non-empty fragment at time `1`
after a start time of `0` yields `ttft = 1 > 0` and one token. -/
theorem ttft_positive_implies_token_received_witness :
    1 ≤ (send_streaming_request 0 0 5
        (.response 200 [.frame 1 "hello" none, .done] none)).tokens_received :=
  ttft_positive_implies_token_received 0 0 5
    (.response 200 [.frame 1 "hello" none, .done] none)
    (by
      norm_num [send_streaming_request, processLines, initResult]
      rw [if_neg (show ¬("hello" = "") by decide)]
      norm_num)

/-- C5: a non-200 initial status makes `send_streaming_request` return at
once with `error = "HTTP <code>"`, no tokens, zero `ttft`, and
`stream_completed = false`; the returned outcome does not depend on the
body at all (the body is never read). -/
theorem non_success_status_short_circuits (request_id : ℕ) (s e : ℚ) (status : ℕ)
    (lines : List StreamLine) (midstream : Option TransportError)
    (h : status ≠ 200) :
    (send_streaming_request request_id s e (.response status lines midstream)).error
        = "HTTP " ++ toString status ∧
    (send_streaming_request request_id s e (.response status lines midstream)).tokens_received
        = 0 ∧
    (send_streaming_request request_id s e (.response status lines midstream)).ttft = 0 ∧
    (send_streaming_request request_id s e (.response status lines midstream)).stream_completed
        = false ∧
    (send_streaming_request request_id s e (.response status lines midstream)).status_code
        = status ∧
    ∀ (lines2 : List StreamLine) (midstream2 : Option TransportError),
      send_streaming_request request_id s e (.response status lines2 midstream2)
        = send_streaming_request request_id s e (.response status lines midstream) := by
  refine ⟨?_, ?_, ?_, ?_, ?_, ?_⟩ <;>
    simp [send_streaming_request, initResult, h]

/-- C5 witness: the short-circuit theorem at status 503 with a non-empty
body that is provably ignored. -/
theorem non_success_status_short_circuits_witness :
    (send_streaming_request 7 0 5
        (.response 503 [.frame 1 "hello" none] none)).error = "HTTP 503" ∧
    (send_streaming_request 7 0 5
        (.response 503 [.frame 1 "hello" none] none)).tokens_received = 0 := by
  have h := non_success_status_short_circuits 7 0 5 503 [.frame 1 "hello" none] none
    (by decide)
  exact ⟨h.1, h.2.1⟩

/-- C3 (code bug): the inner `except` clause of `send_streaming_request`
catches only `JSONDecodeError`, `IndexError` and `KeyError`, so a payload
that parses to a non-object (for example `data: 42`, on which `data.get`
raises `AttributeError`) escapes to the outer `except Exception` handler:
it sets `result.error` to the exception text and aborts the stream, and a
valid fragment after it is never counted — contradicting the documented
"silently skipped, never a request-level error" behaviour.  A payload
raising one of the three listed exceptions is indeed skipped silently and
later fragments still count. -/
theorem malformed_nonobject_payload_aborts_stream :
    (send_streaming_request 0 0 5 (.response 200
        [.malformedUncaught "AttributeError: int object has no attribute get",
          .frame 1 "hello" none, .done] none)).error
      = "AttributeError: int object has no attribute get" ∧
    (send_streaming_request 0 0 5 (.response 200
        [.malformedUncaught "AttributeError: int object has no attribute get",
          .frame 1 "hello" none, .done] none)).tokens_received = 0 ∧
    (send_streaming_request 0 0 5 (.response 200
        [.malformedUncaught "AttributeError: int object has no attribute get",
          .frame 1 "hello" none, .done] none)).stream_completed = false ∧
    (send_streaming_request 0 0 5 (.response 200
        [.malformedCaught, .frame 1 "hello" none, .done] none)).error = "" ∧
    (send_streaming_request 0 0 5 (.response 200
        [.malformedCaught, .frame 1 "hello" none, .done] none)).tokens_received = 1 ∧
    (send_streaming_request 0 0 5 (.response 200
        [.malformedCaught, .frame 1 "hello" none, .done] none)).stream_completed = true := by
  refine ⟨?_, ?_, ?_, ?_, ?_, ?_⟩ <;> rfl

theorem workerTrace_ids (inputs : List (ℚ × ℚ × Transport)) (c : ℕ) :
    (workerTrace inputs c).1.map (fun r => r.request_id)
      = List.range' c inputs.length := by
  induction inputs generalizing c with
  | nil => rfl
  | cons i rest ih =>
    obtain ⟨s, e, tr⟩ := i
    simp only [workerTrace, drawId, List.map_cons, List.length_cons, List.range'_succ]
    rw [send_streaming_request_request_id, ih]

/-- C8: over any serialized trace of worker iterations starting from
counter 0, the assigned request ids are pairwise distinct naturals,
strictly increasing in assignment order, and the set of assigned ids has
exactly as many elements as the list of collected outcomes. -/
theorem request_ids_unique_and_increasing (inputs : List (ℚ × ℚ × Transport)) :
    ((workerTrace inputs 0).1.map (fun r => r.request_id)).Nodup ∧
    ((workerTrace inputs 0).1.map (fun r => r.request_id)).Pairwise (· < ·) ∧
    ((workerTrace inputs 0).1.map (fun r => r.request_id)).toFinset.card
      = (workerTrace inputs 0).1.length := by
  have hids := workerTrace_ids inputs 0
  have hlen : (workerTrace inputs 0).1.length = inputs.length := by
    have := congrArg List.length hids
    simpa using this
  have hpw : (List.range' 0 inputs.length).Pairwise (· < ·) := by
    simpa using List.pairwise_lt_range' 0 inputs.length 1 (by omega)
  have hnd : (List.range' 0 inputs.length).Nodup :=
    hpw.imp (fun hab => Nat.ne_of_lt hab)
  rw [hids, hlen]
  refine ⟨hnd, hpw, ?_⟩
  rw [List.toFinset_card_of_nodup hnd, List.length_range']

theorem compute_metrics_of_ne_nil (results : List RequestResult) (s e : ℚ)
    (h : results ≠ []) :
    compute_metrics results s e =
      { total_requests := results.length
        successful := results.countP (fun r => r.error = "")
        failed := results.length - results.countP (fun r => r.error = "")
        error_rate := pyRound
          (((results.length - results.countP (fun r => r.error = "") : ℕ) : ℚ)
            / (results.length : ℚ)) 4
        status_code_counts := results.foldl countStatus []
        ttft_p50 := pyRound ((percentile (List.insertionSort (· ≤ ·)
            ((results.filter (fun r => 0 < r.ttft)).map (fun r => r.ttft))) 50).getD 0) 4
        ttft_p95 := pyRound ((percentile (List.insertionSort (· ≤ ·)
            ((results.filter (fun r => 0 < r.ttft)).map (fun r => r.ttft))) 95).getD 0) 4
        tokens_per_sec := pyRound (if 0 < e - s
            then ((results.map (fun r => r.tokens_received)).sum : ℚ) / (e - s) else 0) 1
        stream_completion_rate := pyRound
          (((results.countP (fun r => r.stream_completed) : ℕ) : ℚ)
            / (results.length : ℚ)) 4
        duration_actual := pyRound (e - s) 1 } := by
  have hlen : results.length ≠ 0 := by simpa [List.length_eq_zero] using h
  have hpos : 0 < results.length := Nat.pos_of_ne_zero hlen
  simp [compute_metrics, hlen, hpos, Function.comp_def]

/-- C2 (amended): `successful + failed = total_requests` always holds, and
the returned `error_rate` equals `failed / total_requests` rounded half to
even at 4 decimal digits (`round(error_rate, 4)` in the source), with
`error_rate = 0` when `total_requests = 0`. -/
theorem compute_metrics_successful_failed_error_rate
    (results : List RequestResult) (s e : ℚ) :
    (compute_metrics results s e).successful + (compute_metrics results s e).failed
        = (compute_metrics results s e).total_requests ∧
    (compute_metrics results s e).error_rate =
      (if (compute_metrics results s e).total_requests = 0 then 0
        else pyRound (((compute_metrics results s e).failed : ℚ)
          / ((compute_metrics results s e).total_requests : ℚ)) 4) := by
  by_cases h : results = []
  · subst h
    constructor <;> simp [compute_metrics]
  · rw [compute_metrics_of_ne_nil results s e h]
    have hle : results.countP (fun r => r.error = "") ≤ results.length :=
      List.countP_le_length _
    have hlen : results.length ≠ 0 := by simpa [List.length_eq_zero] using h
    constructor
    · simp only
      omega
    · simp [hlen]

/-- C2 counterexample: with two successes and one failure the source
returns `round(1/3, 4) = 0.3333`, which is not `failed / total_requests`
(`1/3`): the claimed exact equality fails on the returned metrics. -/
theorem compute_metrics_error_rate_not_exact :
    (compute_metrics [initResult 0 0, initResult 1 0,
        { initResult 2 0 with error := "timeout" }] 0 1).error_rate ≠
      ((compute_metrics [initResult 0 0, initResult 1 0,
          { initResult 2 0 with error := "timeout" }] 0 1).failed : ℚ)
        / ((compute_metrics [initResult 0 0, initResult 1 0,
            { initResult 2 0 with error := "timeout" }] 0 1).total_requests : ℚ) := by
  rw [compute_metrics_of_ne_nil _ _ _ (by simp)]
  simp only [List.countP_cons, List.countP_nil, initResult, List.length_cons,
    List.length_nil]
  norm_num [pyRound, roundHalfEven, ratFloor_eq_floor,
    show ¬("timeout" = "") from by decide]

/-- C6: the returned `error_rate` and `stream_completion_rate` always lie
in the closed interval `[0, 1]` (both are ratios of a count by the total,
and rounding preserves the bounds). -/
theorem rates_in_unit_interval (results : List RequestResult) (s e : ℚ) :
    0 ≤ (compute_metrics results s e).error_rate ∧
    (compute_metrics results s e).error_rate ≤ 1 ∧
    0 ≤ (compute_metrics results s e).stream_completion_rate ∧
    (compute_metrics results s e).stream_completion_rate ≤ 1 := by
  by_cases h : results = []
  · subst h
    norm_num [compute_metrics]
  · rw [compute_metrics_of_ne_nil results s e h]
    have hlen : results.length ≠ 0 := by simpa [List.length_eq_zero] using h
    have hpos : (0 : ℚ) < (results.length : ℚ) := by
      exact_mod_cast Nat.pos_of_ne_zero hlen
    have hfail : ((results.length - results.countP (fun r => r.error = "") : ℕ) : ℚ)
        / (results.length : ℚ) ≤ 1 := by
      rw [div_le_one hpos]
      exact_mod_cast Nat.sub_le _ _
    have hcomp : ((results.countP (fun r => r.stream_completed) : ℕ) : ℚ)
        / (results.length : ℚ) ≤ 1 := by
      rw [div_le_one hpos]
      exact_mod_cast List.countP_le_length _
    refine ⟨pyRound_nonneg _ _ (div_nonneg (by positivity) hpos.le),
      pyRound_le_one _ _ hfail,
      pyRound_nonneg _ _ (div_nonneg (by positivity) hpos.le),
      pyRound_le_one _ _ hcomp⟩

/-- C7 (amended): the returned `tokens_per_sec` equals the sum of
`tokens_received` divided by `end_time - start_time` rounded half to even
at 1 decimal digit (`round(tokens_per_sec, 1)` in the source), is `0` when
that duration is non-positive, and all rate/ratio fields are `0` when
`total_requests = 0`. -/
theorem compute_metrics_tokens_per_sec_rounded
    (results : List RequestResult) (s e : ℚ) :
    (compute_metrics results s e).tokens_per_sec =
      (if results = [] then 0
        else if 0 < e - s then
          pyRound (((results.map (fun r => r.tokens_received)).sum : ℚ) / (e - s)) 1
        else 0) ∧
    (compute_metrics [] s e).error_rate = 0 ∧
    (compute_metrics [] s e).tokens_per_sec = 0 ∧
    (compute_metrics [] s e).stream_completion_rate = 0 ∧
    (compute_metrics [] s e).ttft_p50 = 0 ∧
    (compute_metrics [] s e).ttft_p95 = 0 := by
  refine ⟨?_, by simp [compute_metrics], by simp [compute_metrics],
    by simp [compute_metrics], by simp [compute_metrics], by simp [compute_metrics]⟩
  by_cases h : results = []
  · subst h
    simp [compute_metrics]
  · rw [compute_metrics_of_ne_nil results s e h, if_neg h]
    by_cases hd : 0 < e - s
    · simp [hd]
    · simp [hd, pyRound_zero]

/-- C7 counterexample: one outcome with a single token over a duration of
3 seconds makes the source return `round(1/3, 1) = 0.3`, not the exact
ratio `1/3`: the claimed exact equality fails on the returned metrics. -/
theorem compute_metrics_tokens_per_sec_not_exact :
    (compute_metrics [{ initResult 0 0 with tokens_received := 1 }] 0 3).tokens_per_sec ≠
      (([{ initResult 0 0 with tokens_received := 1 }].map
          (fun r => r.tokens_received)).sum : ℚ) / (3 - 0) := by
  rw [compute_metrics_of_ne_nil _ _ _ (by simp)]
  simp only [List.map_cons, List.map_nil, List.sum_cons, List.sum_nil, initResult]
  norm_num [pyRound, roundHalfEven, ratFloor_eq_floor]

theorem dictSet_incr_map_snd_sum (d : List (String × ℕ)) (k : String) :
    ((dictSet d k (dictGetD d k 0 + 1)).map Prod.snd).sum
      = ((d.map Prod.snd).sum) + 1 := by
  induction d with
  | nil => simp [dictSet, dictGetD]
  | cons hd tl ih =>
    obtain ⟨k0, v0⟩ := hd
    by_cases h : k0 = k
    · simp [dictSet, dictGetD, h]
      omega
    · simp [dictSet, dictGetD, h] at ih ⊢
      omega

theorem foldl_countStatus_map_snd_sum (results : List RequestResult)
    (d : List (String × ℕ)) :
    ((results.foldl countStatus d).map Prod.snd).sum
      = (d.map Prod.snd).sum + results.length := by
  induction results generalizing d with
  | nil => simp
  | cons r rest ih =>
    simp only [List.foldl_cons, List.length_cons]
    rw [ih, countStatus, dictSet_incr_map_snd_sum]
    omega

/-- C10: the values of the `status_code_counts` histogram sum to
`total_requests` (each outcome is counted exactly once under the key
`str(status_code)`, failures with status 0 included), and the histogram is
empty for an empty outcome collection. -/
theorem status_code_counts_sum_to_total (results : List RequestResult) (s e : ℚ) :
    (((compute_metrics results s e).status_code_counts).map Prod.snd).sum
        = (compute_metrics results s e).total_requests ∧
    (compute_metrics [] s e).status_code_counts = [] := by
  refine ⟨?_, by simp [compute_metrics]⟩
  by_cases h : results = []
  · subst h
    simp [compute_metrics]
  · rw [compute_metrics_of_ne_nil results s e h]
    simpa using foldl_countStatus_map_snd_sum results []

end StreamLoad
